import Mathlib

/-
Verification development for the Syncthing status-aggregation core.

The definitions below are a shallow embedding of the Rust backend
(src/backend/src/syncthing_client/...): pure functions are translated
directly, the HTTP fan-out of the aggregator is modelled by an
environment record holding the outcome of each REST call, and machine
integers are modelled as Nat with explicit saturation at the u32/u64
bounds.  Floating-point completion percentages are modelled exactly,
as rationals.
-/

namespace SyncMon

/-! ### Small helpers: saturating arithmetic and ASCII string utilities -/

def U64MAX : Nat := 2 ^ 64 - 1

def U32MAX : Nat := 2 ^ 32 - 1

/-- u64 saturating_add. -/
def satAdd64 (a b : Nat) : Nat := min (a + b) U64MAX

/-- u32 saturating_add. -/
def satAdd32 (a b : Nat) : Nat := min (a + b) U32MAX

/-- Rust str::to_ascii_lowercase (Char.toLower only folds ASCII A-Z). -/
def asciiLower (s : String) : String := s.map Char.toLower

/-- Rust str::eq_ignore_ascii_case. -/
def eqIgnoreAsciiCase (a b : String) : Bool := asciiLower a == asciiLower b

/-- Rust str::contains(pat): substring containment. -/
def containsSub (s pat : String) : Bool :=
  s.toList.tails.any (fun t => pat.toList.isPrefixOf t)

/-- Index of the first occurrence of pat in hay, Rust str::find semantics. -/
def findSubIdx (pat : List Char) : List Char → Option Nat
  | [] => if pat.isEmpty then some 0 else none
  | c :: rest =>
    if pat.isPrefixOf (c :: rest) then some 0
    else (findSubIdx pat rest).map (· + 1)

/-! ### Error taxonomy (crate::types::MonitorError, the variants the core uses) -/

inductive MonitorError where
  | Http : String → MonitorError
  | Syncthing : String → MonitorError
  | Io : String → MonitorError
  | MissingApiKey : MonitorError
  deriving DecidableEq

/-! ### JSON values (serde_json::Value restricted to the shapes the core reads;
numbers are modelled as integers, which covers every field the code extracts
with as_u64 / as_str) -/

inductive Json where
  | null : Json
  | boolVal : Bool → Json
  | numVal : Int → Json
  | strVal : String → Json
  | arrVal : List Json → Json
  | objVal : List (String × Json) → Json

/-- Value::get on an object: first field with the given key. -/
def Json.get : Json → String → Option Json
  | .objVal fields, key => (fields.find? (fun kv => kv.1 == key)).map Prod.snd
  | _, _ => none

/-- Value::as_str. -/
def Json.asStr : Json → Option String
  | .strVal s => some s
  | _ => none

/-- Value::as_u64: integral, nonnegative, fits u64. -/
def Json.asNat : Json → Option Nat
  | .numVal n => if 0 ≤ n ∧ n ≤ (U64MAX : Int) then some n.toNat else none
  | _ => none

/-- Value::as_f64 restricted to the integral numbers of this model. -/
def Json.asInt : Json → Option Int
  | .numVal n => some n
  | _ => none

/-- Value::as_array. -/
def Json.asArr : Json → Option (List Json)
  | .arrVal l => some l
  | _ => none

/-! ### Folder state classification (models/folder.rs) -/

inductive FolderStateCode where
  | Unknown | Paused | Error | WaitingToScan | WaitingToSync
  | Scanning | PreparingToSync | Syncing | PendingChanges | UpToDate
  deriving DecidableEq

structure FolderStateInfo where
  label : String
  code : FolderStateCode
  deriving DecidableEq

/-- compute_completion from models/folder.rs: completion percentage from
globalBytes and needBytes, with f64 arithmetic modelled exactly over ℚ. -/
def compute_completion (global_bytes need_bytes : Option Nat) : ℚ :=
  match global_bytes, need_bytes with
  | some global, some need =>
    if 0 < global then
      let complete : Nat := global - need
      max 0 (min 100 (((complete : ℚ) / (global : ℚ)) * 100))
    else 0
  | some global, none => if 0 < global then 100 else 0
  | _, _ => 0

/-- humanize_folder_state from models/folder.rs, translated clause by clause. -/
def humanize_folder_state (paused : Bool) (state : Option String)
    (need_bytes : Option Nat) : FolderStateInfo :=
  if paused then ⟨"Paused", FolderStateCode.Paused⟩
  else
    let fallback : FolderStateInfo :=
      if need_bytes.getD 0 = 0 then ⟨"Up to date", FolderStateCode.UpToDate⟩
      else ⟨"Unknown state", FolderStateCode.Unknown⟩
    match state with
    | none => fallback
    | some state_value =>
      let normalized := asciiLower state_value
      if containsSub normalized "waiting" && containsSub normalized "scan" then
        ⟨"Waiting to scan", FolderStateCode.WaitingToScan⟩
      else if containsSub normalized "waiting" && containsSub normalized "sync" then
        ⟨"Waiting to sync", FolderStateCode.WaitingToSync⟩
      else if containsSub normalized "preparing" && containsSub normalized "sync" then
        ⟨"Preparing to sync", FolderStateCode.PreparingToSync⟩
      else if eqIgnoreAsciiCase state_value "scanning" then
        ⟨"Scanning", FolderStateCode.Scanning⟩
      else if eqIgnoreAsciiCase state_value "syncing" then
        ⟨"Syncing", FolderStateCode.Syncing⟩
      else if eqIgnoreAsciiCase state_value "idle" then
        if need_bytes.getD 0 = 0 then ⟨"Up to date", FolderStateCode.UpToDate⟩
        else ⟨"Idle / pending changes", FolderStateCode.PendingChanges⟩
      else if eqIgnoreAsciiCase state_value "error" then
        ⟨"Error", FolderStateCode.Error⟩
      else fallback

/-- classifyFolderState as the specification words it (section 4.3): a
first-match-wins decision table.  Written from the spec, to be compared with
the embedding of the source. -/
def classifyFolderState (paused : Bool) (rawState : Option String)
    (needBytes : Option Nat) : FolderStateInfo :=
  if paused then ⟨"Paused", FolderStateCode.Paused⟩
  else
    let otherwise : FolderStateInfo :=
      if needBytes.getD 0 = 0 then ⟨"Up to date", FolderStateCode.UpToDate⟩
      else ⟨"Unknown state", FolderStateCode.Unknown⟩
    match rawState with
    | none => otherwise
    | some raw =>
      let low := asciiLower raw
      if containsSub low "waiting" && containsSub low "scan" then
        ⟨"Waiting to scan", FolderStateCode.WaitingToScan⟩
      else if containsSub low "waiting" && containsSub low "sync" then
        ⟨"Waiting to sync", FolderStateCode.WaitingToSync⟩
      else if containsSub low "preparing" && containsSub low "sync" then
        ⟨"Preparing to sync", FolderStateCode.PreparingToSync⟩
      else if eqIgnoreAsciiCase raw "scanning" then
        ⟨"Scanning", FolderStateCode.Scanning⟩
      else if eqIgnoreAsciiCase raw "syncing" then
        ⟨"Syncing", FolderStateCode.Syncing⟩
      else if eqIgnoreAsciiCase raw "idle" then
        if needBytes.getD 0 = 0 then ⟨"Up to date", FolderStateCode.UpToDate⟩
        else ⟨"Idle / pending changes", FolderStateCode.PendingChanges⟩
      else if eqIgnoreAsciiCase raw "error" then
        ⟨"Error", FolderStateCode.Error⟩
      else otherwise

/-! ### API types (api_types.rs) -/

structure FolderDevice where
  device_id : String
  deriving DecidableEq

structure FolderConfig where
  id : String
  label : Option String := none
  path : Option String := none
  paused : Option Bool := none
  devices : List FolderDevice := []
  deriving DecidableEq

structure DeviceConfig where
  device_id : String
  name : Option String := none
  paused : Option Bool := none
  deriving DecidableEq

structure SyncthingConfig where
  folders : List FolderConfig := []
  devices : List DeviceConfig := []
  deriving DecidableEq

structure ConnectionState where
  connected : Bool := false
  paused : Bool := false
  client_version : Option String := none
  address : Option String := none
  last_seen : Option String := none
  deriving DecidableEq

structure ConnectionsResponse where
  connections : List (String × ConnectionState) := []
  deriving DecidableEq

structure RemoteCompletion where
  completion : Option ℚ := none
  need_bytes : Option Nat := none
  deriving DecidableEq

structure SyncthingEvent where
  id : Nat
  event_type : String
  time : String
  data : Json

/-- SyncthingEvent::folder_id. -/
def SyncthingEvent.folder_id (e : SyncthingEvent) : Option String :=
  (e.data.get "folder").bind Json.asStr

/-- The body of the item-scanning loops in SyncthingEvent::file_name:
path, else item, else file (the key chain is resolved before as_str). -/
def entryPathItemFile (entry : Json) : Option String :=
  (entry.get "path" <|> entry.get "item" <|> entry.get "file").bind Json.asStr

/-- SyncthingEvent::file_name: flat item, else flat file, else first match in
the items array, else first match in the files array. -/
def SyncthingEvent.file_name (e : SyncthingEvent) : Option String :=
  ((e.data.get "item").bind Json.asStr) <|>
  ((e.data.get "file").bind Json.asStr) <|>
  (((e.data.get "items").bind Json.asArr).bind
    (fun items => items.findSome? entryPathItemFile)) <|>
  (((e.data.get "files").bind Json.asArr).bind
    (fun files => files.findSome? entryPathItemFile))

/-- SyncthingEvent::action. -/
def SyncthingEvent.action (e : SyncthingEvent) : Option String :=
  ((e.data.get "action").bind Json.asStr) <|>
  (((e.data.get "items").bind Json.asArr).bind
    (fun items => items.findSome? (fun entry => (entry.get "action").bind Json.asStr)))

/-- SyncthingEvent::origin. -/
def SyncthingEvent.origin (e : SyncthingEvent) : Option String :=
  (e.data.get "device" <|> e.data.get "peerID" <|> e.data.get "id").bind Json.asStr

/-! ### Models: folder payload, peer progress, overview -/

structure FolderChange where
  name : String
  action : String
  when : String
  origin : Option String := none
  deriving DecidableEq

structure FolderPeerNeedSummary where
  peer_count : Nat := 0
  need_bytes : Nat := 0
  deriving DecidableEq

structure FolderPayload where
  id : String
  label : String
  path : Option String
  state : String
  state_code : FolderStateCode
  state_raw : Option String
  paused : Bool
  global_bytes : Option Nat
  in_sync_bytes : Option Nat
  need_bytes : Option Nat
  completion : ℚ
  last_changes : List FolderChange
  peers_need_summary : Option FolderPeerNeedSummary
  deriving DecidableEq

/-- FolderPayload::from_parts. -/
def FolderPayload.from_parts (folder : FolderConfig) (status : Json)
    (last_changes : List FolderChange)
    (peers_need_summary : Option FolderPeerNeedSummary) : FolderPayload :=
  let global_bytes := (status.get "globalBytes").bind Json.asNat
  let need_bytes := (status.get "needBytes").bind Json.asNat
  let in_sync_bytes := (status.get "inSyncBytes").bind Json.asNat
  let completion := compute_completion global_bytes need_bytes
  let state_raw := (status.get "state").bind Json.asStr
  let paused := folder.paused.getD false
  let state_info := humanize_folder_state paused state_raw need_bytes
  { id := folder.id
  , label := folder.label.getD folder.id
  , path := folder.path
  , state := state_info.label
  , state_code := state_info.code
  , state_raw := state_raw
  , paused := paused
  , global_bytes := global_bytes
  , in_sync_bytes := in_sync_bytes
  , need_bytes := need_bytes
  , completion := completion
  , last_changes := last_changes
  , peers_need_summary := peers_need_summary }

structure PeerFolderState where
  folder_id : String
  folder_label : String
  completion : Option ℚ := none
  need_bytes : Option Nat := none
  deriving DecidableEq

structure PeerPayload where
  id : String
  name : String
  connected : Bool := false
  paused : Bool := false
  address : Option String := none
  client_version : Option String := none
  last_seen : Option String := none
  completion : Option ℚ := none
  need_bytes : Option Nat := none
  folders : List PeerFolderState := []
  deriving DecidableEq

structure PeerProgress where
  total_completion : ℚ := 0
  completion_samples : Nat := 0
  total_need_bytes : Nat := 0
  folders : List PeerFolderState := []
  deriving DecidableEq

/-- PeerProgress::record. -/
def PeerProgress.record (p : PeerProgress) (folder : FolderConfig)
    (completion : RemoteCompletion) : PeerProgress :=
  let p1 := match completion.completion with
    | some value =>
      { p with total_completion := p.total_completion + value
             , completion_samples := satAdd32 p.completion_samples 1 }
    | none => p
  let p2 := match completion.need_bytes with
    | some need => { p1 with total_need_bytes := satAdd64 p1.total_need_bytes need }
    | none => p1
  { p2 with folders := p2.folders ++
      [{ folder_id := folder.id
       , folder_label := folder.label.getD folder.id
       , completion := completion.completion
       , need_bytes := completion.need_bytes }] }

/-- PeerProgress::avg_completion (99.99 is the rational 9999/100). -/
def PeerProgress.avg_completion (p : PeerProgress) : Option ℚ :=
  if p.completion_samples = 0 then none
  else
    let average := p.total_completion / (p.completion_samples : ℚ)
    let average := if 0 < p.total_need_bytes ∧ (9999 / 100 : ℚ) < average
      then (9999 / 100 : ℚ) else average
    let average := if (100 : ℚ) < average then 100 else average
    some average

/-- PeerProgress::outstanding_need. -/
def PeerProgress.outstanding_need (p : PeerProgress) : Option Nat :=
  if 0 < p.total_need_bytes then some p.total_need_bytes else none

structure SyncthingOverview where
  available : Bool := false
  my_id : Option String := none
  version : Option String := none
  state : Option String := none
  health : Option String := none
  started_at : Option String := none
  uptime_seconds : Option Int := none
  sequence : Option Nat := none
  goroutine_count : Option Nat := none
  errors : List String := []

/-- SyncthingOverview::from_value. -/
def SyncthingOverview.from_value (value : Json) : SyncthingOverview :=
  { available := true
  , my_id := (value.get "myID").bind Json.asStr
  , version := (value.get "version").bind Json.asStr
  , state := ((value.get "state") <|> (value.get "status")).bind Json.asStr
  , health := ((value.get "health") <|> (value.get "status")).bind Json.asStr
  , started_at := ((value.get "startTime") <|> (value.get "startedAt")).bind Json.asStr
  , uptime_seconds := (value.get "uptime").bind Json.asInt
  , sequence := ((value.get "sequence") <|> (value.get "dbSequence")).bind Json.asNat
  , goroutine_count := (value.get "goroutineCount").bind Json.asNat
  , errors := [] }

/-! ### helpers.rs: file-event set and API-key discovery -/

def RECENT_EVENTS_LIMIT : Nat := 200

/-- is_file_event from helpers.rs. -/
def is_file_event (event_type : String) : Bool :=
  event_type == "ItemFinished" || event_type == "ItemStarted" ||
  event_type == "LocalIndexUpdated" || event_type == "RemoteIndexUpdated" ||
  event_type == "ItemDownloaded" || event_type == "FolderSummary" ||
  event_type == "FolderCompletion"

/-- Both-ends whitespace trim on a character list (str::trim). -/
def trimChars (l : List Char) : List Char :=
  ((l.dropWhile Char.isWhitespace).reverse.dropWhile Char.isWhitespace).reverse

/-- str::trim on a String. -/
def strTrim (s : String) : String := (trimChars s.toList).asString

/-- extract_api_key from helpers.rs: textual extraction of the first
apikey XML tag, body trimmed. -/
def extract_api_key (contents : String) : Option String :=
  let cs := contents.toList
  let startTag := "<apikey>".toList
  let endTag := "</apikey>".toList
  match findSubIdx startTag cs with
  | none => none
  | some start =>
    let rest := cs.drop (start + startTag.length)
    match findSubIdx endTag rest with
    | none => none
    | some stop => some (trimChars (rest.take stop)).asString

/-- load_api_key from helpers.rs.  The environment variable is modelled as an
Option and the XML config file read as an Except (error = the io failure). -/
def load_api_key (envVar : Option String) (file : Except String String) :
    Except MonitorError String :=
  let fromFile : Except MonitorError String :=
    match file with
    | .error e => .error (.Io e)
    | .ok contents =>
      match extract_api_key contents with
      | some key => .ok key
      | none => .error .MissingApiKey
  match envVar with
  | some value => if !(strTrim value == "") then .ok value else fromFile
  | none => fromFile

/-! ### Data aggregator (core/aggregator.rs).  The HTTP fan-out is modelled by
an environment holding the outcome of each REST call of one cycle; the
format_relative_time helper (a function of the wall clock) is abstracted as
the format_time field. -/

structure SyncthingData where
  overview : SyncthingOverview
  folders : List FolderPayload
  peers : List PeerPayload

structure AggEnv where
  status : Except MonitorError Json
  config : Except MonitorError SyncthingConfig
  events : Except MonitorError (List SyncthingEvent)
  folder_status : String → Except MonitorError Json
  connections : Except MonitorError ConnectionsResponse
  completion : String → String → Except MonitorError RemoteCompletion
  format_time : String → String

/-- HashMap::entry(k).or_insert_with(default) followed by an update f,
on an association list. -/
def upsert (k : String) (d : V) (f : V → V) : List (String × V) → List (String × V)
  | [] => [(k, f d)]
  | (k2, v) :: rest =>
    if k2 == k then (k2, f v) :: rest else (k2, v) :: upsert k d f rest

/-- The FolderChange built from one event (None when the event carries no
extractable file name, in which case the loop skips the event). -/
def mkChange (fmt : String → String) (e : SyncthingEvent) : Option FolderChange :=
  (e.file_name).map (fun nm =>
    { name := nm
    , action := (e.action).getD e.event_type
    , when := fmt e.time
    , origin := e.origin })

/-- One iteration of the event loop of latest_folder_changes: the guards of
the source in order (file event, folder id present, folder allowed, no change
recorded yet, file name extractable). -/
def stepChange (fmt : String → String) (allowed : List String)
    (e : SyncthingEvent) (acc : List (String × FolderChange)) :
    List (String × FolderChange) :=
  if !(is_file_event e.event_type) then acc
  else match e.folder_id with
    | none => acc
    | some fid =>
      if !(allowed.contains fid) then acc
      else if (acc.lookup fid).isSome then acc
      else match mkChange fmt e with
        | some ch => acc ++ [(fid, ch)]
        | none => acc

/-- The event loop of latest_folder_changes over the descending-sorted list. -/
def changesFold (fmt : String → String) (allowed : List String) :
    List SyncthingEvent → List (String × FolderChange) → List (String × FolderChange)
  | [], acc => acc
  | e :: rest, acc => changesFold fmt allowed rest (stepChange fmt allowed e acc)

/-- events.sort_by(b.id.cmp(a.id)): stable descending sort by event id. -/
def descSort (events : List SyncthingEvent) : List SyncthingEvent :=
  events.mergeSort (fun a b => decide (b.id ≤ a.id))

/-- latest_folder_changes from core/aggregator.rs: env.events stands for the
one /rest/events fetch (since 0, limit RECENT_EVENTS_LIMIT). -/
def latest_folder_changes (env : AggEnv) (allowed : List String) :
    Except MonitorError (List (String × FolderChange)) :=
  if allowed.isEmpty then .ok []
  else
    match env.events with
    | .error e => .error e
    | .ok events => .ok (changesFold env.format_time allowed (descSort events) [])

/-- collect_peer_metrics from core/aggregator.rs: per-(folder,device)
completion queries folded into folder summaries and peer progress; a failed
query is skipped. -/
def collect_peer_metrics (env : AggEnv) (folders : List FolderConfig)
    (my_id : Option String) :
    List (String × FolderPeerNeedSummary) × List (String × PeerProgress) :=
  folders.foldl (fun acc folder =>
    if folder.devices.isEmpty then acc
    else folder.devices.foldl (fun acc device =>
      if device.device_id == "" then acc
      else if my_id == some device.device_id then acc
      else match env.completion folder.id device.device_id with
        | .ok remote_completion =>
          let need := remote_completion.need_bytes.getD 0
          let summaries :=
            if 0 < need then
              upsert folder.id {}
                (fun e => { peer_count := satAdd32 e.peer_count 1
                          , need_bytes := satAdd64 e.need_bytes need }) acc.1
            else acc.1
          let progress := upsert device.device_id {}
            (fun p => p.record folder remote_completion) acc.2
          (summaries, progress)
        | .error _ => acc) acc) ([], [])

/-- The loop body of compose_peers: one peer payload from device config,
connection state and accumulated progress. -/
def peer_payload_of (device : DeviceConfig)
    (peer_progress : List (String × PeerProgress))
    (connections : ConnectionsResponse) : PeerPayload :=
  let connection := connections.connections.lookup device.device_id
  let progress := peer_progress.lookup device.device_id
  { id := device.device_id
  , name := device.name.getD device.device_id
  , connected := (connection.map ConnectionState.connected).getD false
  , paused := device.paused.getD false || (connection.map ConnectionState.paused).getD false
  , address := connection.bind ConnectionState.address
  , client_version := connection.bind ConnectionState.client_version
  , last_seen := connection.bind ConnectionState.last_seen
  , completion := progress.bind PeerProgress.avg_completion
  , need_bytes := progress.bind PeerProgress.outstanding_need
  , folders := (progress.map PeerProgress.folders).getD [] }

/-- compose_peers from core/aggregator.rs. -/
def compose_peers (devices : List DeviceConfig) (my_id : Option String)
    (peer_progress : List (String × PeerProgress))
    (connections : ConnectionsResponse) : List PeerPayload :=
  (devices.filterMap (fun device =>
    if device.device_id == "" then none
    else if my_id == some device.device_id then none
    else some (peer_payload_of device peer_progress connections))).mergeSort
    (fun a b => decide (asciiLower a.name ≤ asciiLower b.name))

/-- The per-folder status loop of compose_payload: one /rest/db/status call
per folder, each mandatory. -/
def buildFolders (env : AggEnv) (latest_changes : List (String × FolderChange))
    (summaries : List (String × FolderPeerNeedSummary)) :
    List FolderConfig → Except MonitorError (List FolderPayload)
  | [] => .ok []
  | folder :: rest =>
    match env.folder_status folder.id with
    | .error e => .error e
    | .ok status =>
      let last_changes := ((latest_changes.lookup folder.id).map (fun c => [c])).getD []
      let payload := FolderPayload.from_parts folder status last_changes
        (summaries.lookup folder.id)
      match buildFolders env latest_changes summaries rest with
      | .error e => .error e
      | .ok tail => .ok (payload :: tail)

/-- compose_payload from core/aggregator.rs, with the same sequencing and
error propagation as the source (early return on status, config, events and
per-folder status; connections degrade to the default empty response). -/
def compose_payload (env : AggEnv) : Except MonitorError SyncthingData :=
  match env.status with
  | .error e => .error e
  | .ok status_value =>
  match env.config with
  | .error e => .error e
  | .ok config =>
  match latest_folder_changes env (config.folders.map FolderConfig.id) with
  | .error e => .error e
  | .ok latest_changes =>
    let connections := match env.connections with
      | .ok data => data
      | .error _ => {}
    let overview := SyncthingOverview.from_value status_value
    let my_id := overview.my_id
    let metrics := collect_peer_metrics env config.folders my_id
    match buildFolders env latest_changes metrics.1 config.folders with
    | .error e => .error e
    | .ok folders =>
      .ok { overview := overview
          , folders := folders
          , peers := compose_peers config.devices my_id metrics.2 connections }

/-! ### Update watcher (client.rs: wait_for_updates) -/

structure EventStreamQuery where
  since : Nat
  limit : Nat
  timeout : Nat
  events : Option String := none
  deriving DecidableEq

structure EventWaitResult where
  last_event_id : Nat
  has_updates : Bool
  deriving DecidableEq

/-- wait_for_updates from client.rs: builds the single long-poll query
(limit 1, timeout clamped to [1,300] whole seconds) and folds the response
into the result; respond stands for the one HTTP round trip. -/
def wait_for_updates (since : Nat) (timeout_secs : Nat)
    (respond : EventStreamQuery → Except MonitorError (List SyncthingEvent)) :
    EventStreamQuery × Except MonitorError EventWaitResult :=
  let ts := min (max timeout_secs 1) 300
  let query : EventStreamQuery := { since := since, limit := 1, timeout := ts }
  (query,
    match respond query with
    | .error e => .error e
    | .ok events =>
      .ok { last_event_id :=
              events.foldl (fun acc e => if acc < e.id then e.id else acc) since
          , has_updates := !events.isEmpty })

/-! ### Statement apparatus: predicates and concrete inputs used by the
theorems below -/

/-- An event that yields the latest change of folder fid: a file event whose
folder is fid, with fid among the configured folders, carrying an
extractable file name. -/
def qualifies (allowed : List String) (fid : String) (e : SyncthingEvent) : Bool :=
  is_file_event e.event_type && (e.folder_id == some fid) &&
  allowed.contains fid && e.file_name.isSome

def c5devices : List DeviceConfig :=
  [⟨"idB", some "b", none⟩, ⟨"idA", some "A", none⟩]

/-- An event of id i touching folder "f" with file name nm. -/
def c6event (i : Nat) (nm : String) : SyncthingEvent :=
  { id := i
  , event_type := "ItemFinished"
  , time := "t"
  , data := Json.objVal [("folder", Json.strVal "f"), ("item", Json.strVal nm)] }

def c6events : List SyncthingEvent :=
  [c6event 50 "n50", c6event 40 "n40", c6event 30 "n30"]

/-- Environment for the C6 witness: three events on the same folder with
ids 50, 40, 30; every other call succeeds trivially. -/
def c6env : AggEnv :=
  { status := .ok Json.null
  , config := .ok { folders := [{ id := "f" }] }
  , events := .ok c6events
  , folder_status := fun _ => .ok Json.null
  , connections := .ok {}
  , completion := fun _ _ => .ok {}
  , format_time := fun s => s }

/-- Environment for the C1 counterexample: system status, daemon config,
every per-folder status, connections and completions all succeed, and only
the recent-events fetch fails. -/
def c1env : AggEnv :=
  { status := .ok (Json.objVal [])
  , config := .ok { folders := [{ id := "f" }] }
  , events := .error (.Http "events fetch failed")
  , folder_status := fun _ => .ok (Json.objVal [])
  , connections := .ok {}
  , completion := fun _ _ => .ok {}
  , format_time := fun s => s }

/-- Environment for the C7 witness: the connections fetch fails, every
mandatory call succeeds. -/
def c7env : AggEnv :=
  { status := .ok Json.null
  , config := .ok { devices := [{ device_id := "d1" }] }
  , events := .ok []
  , folder_status := fun _ => .ok Json.null
  , connections := .error (.Http "connections fetch failed")
  , completion := fun _ _ => .ok {}
  , format_time := fun s => s }

/-- Response used by the C8 witness: one event with id 7. -/
def c8respond : EventStreamQuery → Except MonitorError (List SyncthingEvent) :=
  fun _ => .ok [{ id := 7, event_type := "ItemStarted", time := "t", data := Json.null }]

/-! ### Theorems -/

lemma clamp01_bounds (x : ℚ) : 0 ≤ max 0 (min 100 x) ∧ max 0 (min 100 x) ≤ 100 :=
  ⟨le_max_left _ _, max_le (by norm_num) (min_le_left _ _)⟩

/-- C2: compute_completion(global, need) always lies in [0,100]; for
global > 0 and need present it equals ((global - need) / global) * 100
clamped to [0,100], it is 100 when need is absent, and it equals 100
exactly when need is absent or 0; for global absent or 0 it is 0 (so it
never divides by zero: the only division is guarded by global > 0). -/
theorem compute_completion_spec (g n : Option Nat) :
    0 ≤ compute_completion g n ∧ compute_completion g n ≤ 100 ∧
    (∀ gv, g = some gv → 0 < gv →
      ((∀ nv, n = some nv →
          compute_completion g n =
            max 0 (min 100 ((((gv : ℚ) - (nv : ℚ)) / (gv : ℚ)) * 100))) ∧
       (n = none → compute_completion g n = 100) ∧
       (compute_completion g n = 100 ↔ n = none ∨ n = some 0))) ∧
    ((g = none ∨ g = some 0) → compute_completion g n = 0) := by
  match g, n with
  | none, n =>
    refine ⟨by simp [compute_completion], by simp [compute_completion], ?_, ?_⟩
    · intro gv hgv; exact absurd hgv (by simp)
    · intro _; simp [compute_completion]
  | some gv, none =>
    by_cases hgv : 0 < gv
    · refine ⟨?_, ?_, ?_, ?_⟩
      · simp [compute_completion, hgv]
      · simp [compute_completion, hgv]
      · intro gv2 hg2 _
        refine ⟨?_, ?_, ?_⟩
        · intro nv h; cases h
        · intro _; simp [compute_completion, hgv]
        · simp [compute_completion, hgv]
      · intro h
        rcases h with h | h
        · cases h
        · simp only [Option.some.injEq] at h
          omega
    · have hgv0 : gv = 0 := by omega
      subst hgv0
      refine ⟨by simp [compute_completion], by simp [compute_completion], ?_, ?_⟩
      · intro gv2 hg2 hpos
        simp only [Option.some.injEq] at hg2
        omega
      · intro _; simp [compute_completion]
  | some gv, some nv =>
    by_cases hgv : 0 < gv
    · have hgvQ : (0 : ℚ) < (gv : ℚ) := by exact_mod_cast hgv
      have hgvne : (gv : ℚ) ≠ 0 := ne_of_gt hgvQ
      have hval : compute_completion (some gv) (some nv) =
          max 0 (min 100 ((((gv - nv : Nat) : ℚ) / (gv : ℚ)) * 100)) := by
        simp [compute_completion, hgv]
      have hformula : compute_completion (some gv) (some nv) =
          max 0 (min 100 ((((gv : ℚ) - (nv : ℚ)) / (gv : ℚ)) * 100)) := by
        rcases le_or_lt nv gv with hle | hlt
        · rw [hval, Nat.cast_sub hle]
        · have hsub : gv - nv = 0 := by omega
          have hneg : (((gv : ℚ) - (nv : ℚ)) / (gv : ℚ)) * 100 ≤ 0 := by
            apply mul_nonpos_of_nonpos_of_nonneg
            · apply div_nonpos_of_nonpos_of_nonneg
              · have : (gv : ℚ) ≤ (nv : ℚ) := by exact_mod_cast hlt.le
                linarith
              · exact hgvQ.le
            · norm_num
          rw [hval, hsub]
          have hl : max 0 (min 100 (((0 : Nat) : ℚ) / (gv : ℚ) * 100)) = 0 := by
            simp
          rw [hl]
          rw [min_eq_right (by linarith : (((gv : ℚ) - (nv : ℚ)) / (gv : ℚ)) * 100 ≤ 100)]
          rw [max_eq_left hneg]
      refine ⟨?_, ?_, ?_, ?_⟩
      · rw [hval]; exact (clamp01_bounds _).1
      · rw [hval]; exact (clamp01_bounds _).2
      · intro gv2 hg2 _
        simp only [Option.some.injEq] at hg2
        subst hg2
        refine ⟨?_, ?_, ?_⟩
        · intro nv2 hn2
          simp only [Option.some.injEq] at hn2
          subst hn2
          exact hformula
        · intro h; cases h
        · constructor
          · intro h100
            by_cases hnv : nv = 0
            · right; rw [hnv]
            · exfalso
              have hlt : gv - nv < gv := Nat.sub_lt hgv (by omega)
              have hltQ : ((gv - nv : Nat) : ℚ) < (gv : ℚ) := by exact_mod_cast hlt
              have hr : (((gv - nv : Nat) : ℚ) / (gv : ℚ)) * 100 < 100 := by
                have : ((gv - nv : Nat) : ℚ) / (gv : ℚ) < 1 :=
                  (div_lt_one hgvQ).mpr hltQ
                nlinarith
              have : compute_completion (some gv) (some nv) < 100 := by
                rw [hval, min_eq_right hr.le]
                exact max_lt_iff.mpr ⟨by norm_num, hr⟩
              rw [h100] at this
              exact lt_irrefl _ this
          · intro h
            rcases h with h | h
            · cases h
            · simp only [Option.some.injEq] at h
              subst h
              rw [hval]
              have : ((gv - 0 : Nat) : ℚ) / (gv : ℚ) * 100 = 100 := by
                rw [Nat.sub_zero, div_self hgvne]; norm_num
              rw [this]
              simp
      · intro h
        rcases h with h | h
        · cases h
        · simp only [Option.some.injEq] at h
          omega
    · have hgv0 : gv = 0 := by omega
      subst hgv0
      refine ⟨by simp [compute_completion], by simp [compute_completion], ?_, ?_⟩
      · intro gv2 hg2 hpos
        simp only [Option.some.injEq] at hg2
        omega
      · intro _; simp [compute_completion]

/-- Witness for C2 at global = 4, need = 1. -/
theorem compute_completion_spec_witness :
    compute_completion (some 4) (some 1) =
      max 0 (min 100 ((((4 : ℚ) - (1 : ℚ)) / (4 : ℚ)) * 100)) :=
  ((compute_completion_spec (some 4) (some 1)).2.2.1 4 rfl (by norm_num)).1 1 rfl

/-- C3: the source's humanize_folder_state coincides with the spec's
classifyFolderState decision table on every input: paused always wins, then
the substring rules waiting+scan, waiting+sync, preparing+sync, then the
exact case-insensitive matches scanning / syncing / idle / error (idle
splitting on needBytes = 0), then the needBytes = 0 fallback. -/
theorem humanize_folder_state_matches_spec :
    ∀ (paused : Bool) (rawState : Option String) (needBytes : Option Nat),
      humanize_folder_state paused rawState needBytes =
        classifyFolderState paused rawState needBytes :=
  fun _ _ _ => rfl

/-- C4 (amended): avg_completion is None exactly when there are no samples;
otherwise it is the mean of the recorded samples, clamped to at most 99.99
whenever the accumulated need-bytes sum is positive (even when every raw
sample is 100), and clamped above to 100.  There is no lower clamp: the
value equals the mean whenever the mean is below the active bound, and is
nonnegative only when the mean is. -/
theorem avg_completion_spec (p : PeerProgress) :
    (p.avg_completion = none ↔ p.completion_samples = 0) ∧
    (∀ a, p.avg_completion = some a →
      a ≤ 100 ∧
      (0 < p.total_need_bytes → a ≤ 9999 / 100) ∧
      (p.total_completion / (p.completion_samples : ℚ) ≤ 9999 / 100 →
        a = p.total_completion / (p.completion_samples : ℚ)) ∧
      (p.total_need_bytes = 0 →
        p.total_completion / (p.completion_samples : ℚ) ≤ 100 →
        a = p.total_completion / (p.completion_samples : ℚ)) ∧
      (0 ≤ p.total_completion / (p.completion_samples : ℚ) → 0 ≤ a)) := by
  by_cases hs : p.completion_samples = 0
  · refine ⟨by simp [PeerProgress.avg_completion, hs], ?_⟩
    intro a ha
    rw [PeerProgress.avg_completion, if_pos hs] at ha
    cases ha
  · set mean := p.total_completion / (p.completion_samples : ℚ) with hmean
    have hunfold : p.avg_completion =
        some (if (100 : ℚ) <
                (if 0 < p.total_need_bytes ∧ (9999 / 100 : ℚ) < mean
                 then (9999 / 100 : ℚ) else mean)
              then 100
              else (if 0 < p.total_need_bytes ∧ (9999 / 100 : ℚ) < mean
                    then (9999 / 100 : ℚ) else mean)) := by
      rw [PeerProgress.avg_completion, if_neg hs]
    refine ⟨by simp [hunfold, hs], ?_⟩
    intro a ha
    rw [hunfold] at ha
    injection ha with ha
    by_cases h1 : 0 < p.total_need_bytes ∧ (9999 / 100 : ℚ) < mean
    · rw [if_pos h1, if_neg (by norm_num)] at ha
      subst ha
      refine ⟨by norm_num, fun _ => le_refl _, ?_, ?_, ?_⟩
      · intro hle; exact absurd h1.2 (not_lt.mpr hle)
      · intro hz; exact absurd h1.1 (by omega)
      · intro _; norm_num
    · rw [if_neg h1] at ha
      by_cases h2 : (100 : ℚ) < mean
      · rw [if_pos h2] at ha
        subst ha
        have hneed : ¬ 0 < p.total_need_bytes := by
          intro hn
          exact h1 ⟨hn, lt_trans (by norm_num) h2⟩
        refine ⟨le_refl _, ?_, ?_, ?_, ?_⟩
        · intro hn; exact absurd hn hneed
        · intro hle; exact absurd h2 (not_lt.mpr (hle.trans (by norm_num)))
        · intro _ hle; exact absurd h2 (not_lt.mpr hle)
        · intro _; norm_num
      · rw [if_neg h2] at ha
        subst ha
        refine ⟨not_lt.mp h2, ?_, fun _ => rfl, fun _ _ => rfl, fun h => h⟩
        intro hn
        rcases not_and_or.mp h1 with hc | hc
        · exact absurd hn hc
        · exact not_lt.mp hc

/-- Counterexample to C4 as stated: the claim asserts the result is always
clamped to [0,100], but a progress state accumulated from one negative
sample yields a negative average (the source only clamps from above). -/
theorem avg_completion_counterexample :
    PeerProgress.avg_completion ⟨-1, 1, 0, []⟩ = some (-1) ∧ ¬((0 : ℚ) ≤ -1) := by
  constructor
  · norm_num [PeerProgress.avg_completion]
  · norm_num

/-- Witness for C4: two raw samples of 100 with a positive need sum average
to exactly 99.99. -/
theorem avg_completion_spec_witness :
    PeerProgress.avg_completion ⟨200, 2, 5, []⟩ = some (9999 / 100) ∧
      (9999 / 100 : ℚ) ≤ 100 := by
  have h : PeerProgress.avg_completion ⟨200, 2, 5, []⟩ = some (9999 / 100) := by
    norm_num [PeerProgress.avg_completion]
  exact ⟨h, ((avg_completion_spec ⟨200, 2, 5, []⟩).2 (9999 / 100) h).1⟩

/-- C5: every composed peer list is sorted case-insensitively by name, and
the local daemon's id never appears in it. -/
theorem compose_peers_sorted_excludes_self
    (devices : List DeviceConfig) (my_id : Option String)
    (pp : List (String × PeerProgress)) (conns : ConnectionsResponse) :
    List.Pairwise (fun a b : PeerPayload => asciiLower a.name ≤ asciiLower b.name)
      (compose_peers devices my_id pp conns) ∧
    ∀ p ∈ compose_peers devices my_id pp conns, my_id ≠ some p.id := by
  constructor
  · have h := @List.sorted_mergeSort PeerPayload
      (fun a b => decide (asciiLower a.name ≤ asciiLower b.name))
      (fun a b c hab hbc => by
        simp only [decide_eq_true_eq] at hab hbc ⊢
        exact le_trans hab hbc)
      (fun a b => by
        simp only [Bool.or_eq_true, decide_eq_true_eq]
        exact le_total _ _)
      (devices.filterMap (fun device =>
        if device.device_id == "" then none
        else if my_id == some device.device_id then none
        else some (peer_payload_of device pp conns)))
    exact h.imp (fun hab => of_decide_eq_true hab)
  · intro p hp
    rw [compose_peers, List.mem_mergeSort] at hp
    obtain ⟨d, _, he⟩ := List.mem_filterMap.mp hp
    by_cases h1 : d.device_id == ""
    · rw [if_pos h1] at he; cases he
    · rw [if_neg h1] at he
      by_cases h2 : my_id == some d.device_id
      · rw [if_pos h2] at he; cases he
      · rw [if_neg h2] at he
        injection he with he
        subst he
        simpa [peer_payload_of] using h2

/-- Witness for C5: with devices idB and idA and local id "me", the peer
built for idA is in the composed list and does not carry the local id. -/
theorem compose_peers_witness :
    (some "me" : Option String) ≠
      some (peer_payload_of ⟨"idA", some "A", none⟩ [] {}).id :=
  (compose_peers_sorted_excludes_self c5devices (some "me") [] {}).2
    (peer_payload_of ⟨"idA", some "A", none⟩ [] {})
    (by
      rw [compose_peers, List.mem_mergeSort]
      exact List.mem_filterMap.mpr ⟨⟨"idA", some "A", none⟩, by simp [c5devices], rfl⟩)

lemma mkChange_isSome_of_file_name {fmt : String → String} {e : SyncthingEvent}
    (h : e.file_name.isSome) : ∃ ch, mkChange fmt e = some ch := by
  rw [mkChange]
  obtain ⟨nm, hnm⟩ := Option.isSome_iff_exists.mp h
  exact ⟨_, by rw [hnm]; rfl⟩

lemma step_lookup_of_qualifies {fmt : String → String} {allowed : List String}
    {fid : String} {e : SyncthingEvent} (acc : List (String × FolderChange))
    (hq : qualifies allowed fid e = true) :
    (stepChange fmt allowed e acc).lookup fid =
      (acc.lookup fid).or (mkChange fmt e) := by
  rw [qualifies] at hq
  simp only [Bool.and_eq_true, beq_iff_eq] at hq
  obtain ⟨⟨⟨hfe, hfid⟩, hcont⟩, hname⟩ := hq
  obtain ⟨ch, hch⟩ := @mkChange_isSome_of_file_name fmt e hname
  have hmem : fid ∈ allowed := by simpa using hcont
  cases hl : acc.lookup fid with
  | some c => simp [stepChange, hfe, hfid, hmem, hl, hch]
  | none =>
    simp [stepChange, hfe, hfid, hmem, hl, hch, List.lookup_append]

lemma step_lookup_of_not_qualifies {fmt : String → String} {allowed : List String}
    {fid : String} {e : SyncthingEvent} (acc : List (String × FolderChange))
    (hq : ¬ qualifies allowed fid e = true) :
    (stepChange fmt allowed e acc).lookup fid = acc.lookup fid := by
  cases hfe : is_file_event e.event_type with
  | false => simp [stepChange, hfe]
  | true =>
    cases hfid : e.folder_id with
    | none => simp [stepChange, hfe, hfid]
    | some fid2 =>
      cases hcont : allowed.contains fid2 with
      | false =>
        have hnm : fid2 ∉ allowed := by simpa using hcont
        simp [stepChange, hfe, hfid, hnm]
      | true =>
        have hmem : fid2 ∈ allowed := by simpa using hcont
        cases hl : (acc.lookup fid2).isSome with
        | true => simp [stepChange, hfe, hfid, hmem, hl]
        | false =>
          cases hch : mkChange fmt e with
          | none => simp [stepChange, hfe, hfid, hmem, hl, hch]
          | some ch =>
            have hne : fid2 ≠ fid := by
              rintro rfl
              apply hq
              rw [qualifies, hfe, hfid, hcont]
              have hn : e.file_name.isSome = true := by
                rw [mkChange] at hch
                cases hn : e.file_name with
                | none => rw [hn] at hch; cases hch
                | some nm => rfl
              simp [hn]
            have hsingle :
                ([(fid2, ch)] : List (String × FolderChange)).lookup fid = none := by
              have hb : (fid == fid2) = false :=
                beq_eq_false_iff_ne.mpr (Ne.symm hne)
              rw [List.lookup_cons, hb]
              rfl
            simp [stepChange, hfe, hfid, hmem, hl, hch, List.lookup_append,
              hsingle]

lemma changesFold_lookup (fmt : String → String) (allowed : List String)
    (fid : String) :
    ∀ (evs : List SyncthingEvent) (acc : List (String × FolderChange)),
      (changesFold fmt allowed evs acc).lookup fid =
        (acc.lookup fid).or
          (((evs.find? (qualifies allowed fid)).bind (mkChange fmt)))
  | [], acc => by simp [changesFold]
  | e :: rest, acc => by
    rw [changesFold, changesFold_lookup fmt allowed fid rest]
    by_cases hq : qualifies allowed fid e = true
    · rw [step_lookup_of_qualifies acc hq, List.find?_cons_of_pos _ hq,
        Option.some_bind]
      cases hl : acc.lookup fid with
      | some c => simp
      | none =>
        obtain ⟨ch, hch⟩ := @mkChange_isSome_of_file_name fmt e
          (by rw [qualifies] at hq; simp only [Bool.and_eq_true] at hq; exact hq.2)
        simp [hch]
    · rw [step_lookup_of_not_qualifies acc hq, List.find?_cons_of_neg _ hq]

lemma step_keys_nodup {fmt : String → String} {allowed : List String}
    {e : SyncthingEvent} {acc : List (String × FolderChange)}
    (h : (acc.map Prod.fst).Nodup) :
    ((stepChange fmt allowed e acc).map Prod.fst).Nodup := by
  cases hfe : is_file_event e.event_type with
  | false => simpa [stepChange, hfe] using h
  | true =>
    cases hfid : e.folder_id with
    | none => simpa [stepChange, hfe, hfid] using h
    | some fid =>
      cases hcont : allowed.contains fid with
      | false =>
        have hnm : fid ∉ allowed := by simpa using hcont
        simpa [stepChange, hfe, hfid, hnm] using h
      | true =>
        have hmem : fid ∈ allowed := by simpa using hcont
        cases hl : (acc.lookup fid).isSome with
        | true => simpa [stepChange, hfe, hfid, hmem, hl] using h
        | false =>
          cases hch : mkChange fmt e with
          | none => simpa [stepChange, hfe, hfid, hmem, hl, hch] using h
          | some ch =>
            have hnotmem : fid ∉ acc.map Prod.fst := by
              intro hmemk
              obtain ⟨p, hp, hfst⟩ := List.mem_map.mp hmemk
              have hsome : (acc.lookup fid).isSome := by
                rw [List.lookup_isSome_iff]
                exact ⟨p, hp, by simp [hfst]⟩
              rw [hl] at hsome
              cases hsome
            simp [stepChange, hfe, hfid, hmem, hl, hch, List.nodup_append, h,
              hnotmem]

lemma changesFold_keys_nodup (fmt : String → String) (allowed : List String) :
    ∀ (evs : List SyncthingEvent) (acc : List (String × FolderChange)),
      (acc.map Prod.fst).Nodup →
      ((changesFold fmt allowed evs acc).map Prod.fst).Nodup
  | [], _, h => h
  | e :: rest, acc, h => by
    rw [changesFold]
    exact changesFold_keys_nodup fmt allowed rest _ (step_keys_nodup h)

/-- C6: when the events fetch succeeds, latest_folder_changes keeps at most
one change per folder (its keys are distinct), the scan runs over the events
sorted by descending id, and the change retained for a folder is built from
the first event in that descending order that is a file event for that
(allowed) folder with an extractable file name. -/
theorem latest_folder_changes_spec (env : AggEnv) (allowed : List String)
    (evs : List SyncthingEvent) (fid : String)
    (hne : allowed ≠ []) (hev : env.events = .ok evs) :
    ∃ m, latest_folder_changes env allowed = .ok m ∧
      (m.map Prod.fst).Nodup ∧
      (descSort evs).Pairwise (fun a b => b.id ≤ a.id) ∧
      m.lookup fid =
        ((descSort evs).find? (qualifies allowed fid)).bind
          (mkChange env.format_time) := by
  have hie : allowed.isEmpty = false := by
    cases allowed with
    | nil => exact absurd rfl hne
    | cons a l => rfl
  refine ⟨changesFold env.format_time allowed (descSort evs) [], ?_, ?_, ?_, ?_⟩
  · rw [latest_folder_changes, hie, hev]
    rfl
  · exact changesFold_keys_nodup _ _ _ [] (by simp)
  · have h := @List.sorted_mergeSort SyncthingEvent
      (fun a b => decide (b.id ≤ a.id))
      (fun a b c hab hbc => by
        simp only [decide_eq_true_eq] at hab hbc ⊢
        omega)
      (fun a b => by
        simp only [Bool.or_eq_true, decide_eq_true_eq]
        omega)
      evs
    exact h.imp (fun hab => of_decide_eq_true hab)
  · rw [changesFold_lookup]
    simp

/-- Witness for C6: with same-folder events of ids [50, 40, 30], the
retained change for the folder is the one from event id 50. -/
theorem latest_folder_changes_spec_witness :
    (latest_folder_changes c6env ["f"]).toOption.bind (fun m => m.lookup "f") =
      some { name := "n50", action := "ItemFinished", when := "t", origin := none } := by
  obtain ⟨m, hm, _, _, hl⟩ :=
    latest_folder_changes_spec c6env ["f"] c6events "f" (by simp) rfl
  have hsorted : c6events.Pairwise
      (fun a b : SyncthingEvent => (decide (b.id ≤ a.id)) = true) := by
    simp [c6events, c6event]
  have hds : descSort c6events = c6events := by
    rw [descSort]
    exact List.mergeSort_of_sorted hsorted
  rw [hds] at hl
  rw [hm]
  simp only [Except.toOption, Option.some_bind]
  rw [hl]
  rfl

@[simp] lemma isOk_ok {ε α : Type} (a : α) :
    (Except.ok a : Except ε α).isOk = true := rfl

@[simp] lemma isOk_error {ε α : Type} (e : ε) :
    (Except.error e : Except ε α).isOk = false := rfl

lemma buildFolders_isOk (env : AggEnv) (lc : List (String × FolderChange))
    (sm : List (String × FolderPeerNeedSummary)) :
    ∀ fs : List FolderConfig,
      (buildFolders env lc sm fs).isOk = true ↔
        ∀ f ∈ fs, (env.folder_status f.id).isOk = true
  | [] => by simp [buildFolders]
  | folder :: rest => by
    rw [buildFolders]
    cases h : env.folder_status folder.id with
    | error e =>
      refine ⟨fun hc => absurd hc (by simp), fun hall => ?_⟩
      have h2 := hall folder (List.mem_cons_self _ _)
      rw [h] at h2
      exact absurd h2 (by simp)
    | ok status =>
      have ih := buildFolders_isOk env lc sm rest
      cases hb : buildFolders env lc sm rest with
      | error e2 =>
        rw [hb] at ih
        refine ⟨fun hc => absurd hc (by simp), fun hall => ?_⟩
        exact absurd (ih.mpr (fun f hf => hall f (List.mem_cons_of_mem _ hf)))
          (by simp)
      | ok tail =>
        rw [hb] at ih
        simp only [isOk_ok, true_iff]
        intro f hf
        rcases List.mem_cons.mp hf with hf1 | hf2
        · rw [hf1, h]; rfl
        · exact ih.mp rfl f hf2

/-- C1 (amended): compose_payload fails exactly when a mandatory call fails,
where the mandatory calls are the system status, the daemon config, the
recent-events fetch (whenever at least one folder is configured), and every
per-folder status; a connections failure or a single (folder,device)
completion failure never makes it fail, and on failure an error is returned
in place of any payload. -/
theorem compose_payload_error_iff (env : AggEnv) :
    (compose_payload env).isOk = false ↔
      env.status.isOk = false ∨ env.config.isOk = false ∨
      ∃ cfg, env.config = .ok cfg ∧
        ((cfg.folders ≠ [] ∧ env.events.isOk = false) ∨
         ∃ f ∈ cfg.folders, (env.folder_status f.id).isOk = false) := by
  cases hs : env.status with
  | error e => simp [compose_payload, hs]
  | ok sv =>
    cases hc : env.config with
    | error e => simp [compose_payload, hs, hc]
    | ok cfg =>
      simp only [isOk_ok, Bool.true_eq_false, false_or, Except.ok.injEq,
        exists_eq_left']
      by_cases hf : cfg.folders = []
      · have hlc : latest_folder_changes env (cfg.folders.map FolderConfig.id) =
            .ok [] := by
          rw [latest_folder_changes, hf]
          rfl
        have hbf : buildFolders env []
            (collect_peer_metrics env cfg.folders
              (SyncthingOverview.from_value sv).my_id).1 cfg.folders = .ok [] := by
          rw [hf]; rfl
        rw [compose_payload, hs, hc]
        simp only [hlc, hbf]
        simp [hf]
      · have hie : (cfg.folders.map FolderConfig.id).isEmpty = false := by
          cases hfs : cfg.folders with
          | nil => exact absurd hfs hf
          | cons a l => rfl
        cases he : env.events with
        | error e =>
          have hlc : latest_folder_changes env (cfg.folders.map FolderConfig.id) =
              .error e := by
            rw [latest_folder_changes, hie, he]
            rfl
          rw [compose_payload, hs, hc]
          simp only [hlc]
          simp [hf, he]
        | ok evs =>
          have hlc : latest_folder_changes env (cfg.folders.map FolderConfig.id) =
              .ok (changesFold env.format_time (cfg.folders.map FolderConfig.id)
                (descSort evs) []) := by
            rw [latest_folder_changes, hie, he]
            rfl
          rw [compose_payload, hs, hc]
          simp only [hlc]
          have hbf := buildFolders_isOk env
            (changesFold env.format_time (cfg.folders.map FolderConfig.id)
              (descSort evs) [])
            (collect_peer_metrics env cfg.folders
              (SyncthingOverview.from_value sv).my_id).1 cfg.folders
          cases hb : buildFolders env
              (changesFold env.format_time (cfg.folders.map FolderConfig.id)
                (descSort evs) [])
              (collect_peer_metrics env cfg.folders
                (SyncthingOverview.from_value sv).my_id).1 cfg.folders with
          | error e2 =>
            rw [hb] at hbf
            have hnall : ¬ ∀ f ∈ cfg.folders, (env.folder_status f.id).isOk = true := by
              intro hall
              have hcontra := hbf.mpr hall
              simp at hcontra
            push_neg at hnall
            obtain ⟨f, hf2, hnot⟩ := hnall
            simp only [isOk_error]
            constructor
            · intro _
              exact Or.inr ⟨f, hf2, Bool.not_eq_true _ ▸ hnot⟩
            · intro _
              trivial
          | ok folders =>
            rw [hb] at hbf
            have hall := hbf.mp rfl
            simp only [isOk_ok, Bool.true_eq_false, false_iff]
            intro hcontra
            rcases hcontra with ⟨_, hev⟩ | ⟨f, hf2, hfid⟩
            · exact hev
            · have hok := hall f hf2
              rw [hok] at hfid
              exact absurd hfid (by simp)

/-- Counterexample to C1 as stated: in c1env the system status, the daemon
config, every per-folder status (there is one folder, "f"), the connections
fetch and every completion query all succeed, yet compose_payload fails,
because the recent-events fetch fails — a mandatory call the claim does not
list. -/
theorem compose_payload_counterexample :
    (compose_payload c1env).isOk = false ∧
    c1env.status.isOk = true ∧ c1env.config.isOk = true ∧
    (c1env.folder_status "f").isOk = true ∧
    c1env.connections.isOk = true ∧
    (c1env.completion "f" "d").isOk = true :=
  ⟨rfl, rfl, rfl, rfl, rfl, rfl⟩

/-- Witness for C1: the amended characterisation applied to c1env. -/
theorem compose_payload_error_iff_witness :
    (compose_payload c1env).isOk = false :=
  (compose_payload_error_iff c1env).mpr
    (.inr (.inr ⟨{ folders := [{ id := "f" }] }, rfl, .inl ⟨by simp, rfl⟩⟩))

lemma compose_peers_empty_connections (devices : List DeviceConfig)
    (my : Option String) (pp : List (String × PeerProgress)) :
    ∀ p ∈ compose_peers devices my pp {},
      p.connected = false ∧ p.address = none ∧ p.client_version = none ∧
      p.last_seen = none ∧
      ∃ dev ∈ devices, p.id = dev.device_id ∧ p.paused = dev.paused.getD false := by
  intro p hp
  rw [compose_peers, List.mem_mergeSort] at hp
  obtain ⟨d, hd, he⟩ := List.mem_filterMap.mp hp
  by_cases h1 : d.device_id == ""
  · rw [if_pos h1] at he; cases he
  · rw [if_neg h1] at he
    by_cases h2 : my == some d.device_id
    · rw [if_pos h2] at he; cases he
    · rw [if_neg h2] at he
      injection he with he
      subst he
      refine ⟨rfl, rfl, rfl, rfl, d, hd, rfl, ?_⟩
      simp [peer_payload_of]

/-- C7: when the connections fetch fails but every mandatory call succeeds,
compose_payload still succeeds; its overview comes from the status call, its
folders from the per-folder calls, and its peers are composed against the
empty connection set, so every peer has connected = false, no address,
client version or last-seen, and a paused flag equal to the device-level
flag alone. -/
theorem compose_payload_connections_failure
    (env : AggEnv) (err : MonitorError) (sv : Json) (cfg : SyncthingConfig)
    (lcs : List (String × FolderChange)) (fl : List FolderPayload)
    (hconn : env.connections = .error err)
    (hs : env.status = .ok sv) (hcfg : env.config = .ok cfg)
    (hlc : latest_folder_changes env (cfg.folders.map FolderConfig.id) = .ok lcs)
    (hbf : buildFolders env lcs
      (collect_peer_metrics env cfg.folders
        (SyncthingOverview.from_value sv).my_id).1 cfg.folders = .ok fl) :
    compose_payload env = .ok
      { overview := SyncthingOverview.from_value sv
      , folders := fl
      , peers := compose_peers cfg.devices (SyncthingOverview.from_value sv).my_id
          (collect_peer_metrics env cfg.folders
            (SyncthingOverview.from_value sv).my_id).2 {} } ∧
    ∀ p ∈ compose_peers cfg.devices (SyncthingOverview.from_value sv).my_id
        (collect_peer_metrics env cfg.folders
          (SyncthingOverview.from_value sv).my_id).2 {},
      p.connected = false ∧ p.address = none ∧ p.client_version = none ∧
      p.last_seen = none ∧
      ∃ dev ∈ cfg.devices, p.id = dev.device_id ∧
        p.paused = dev.paused.getD false := by
  constructor
  · rw [compose_payload, hs, hcfg]
    simp only [hlc, hconn, hbf]
  · exact compose_peers_empty_connections cfg.devices
      (SyncthingOverview.from_value sv).my_id
      (collect_peer_metrics env cfg.folders
        (SyncthingOverview.from_value sv).my_id).2

/-- Witness for C7: in c7env only the connections fetch fails and
compose_payload succeeds. -/
theorem compose_payload_connections_failure_witness :
    (compose_payload c7env).isOk = true := by
  have h := compose_payload_connections_failure c7env
    (.Http "connections fetch failed") Json.null
    { devices := [{ device_id := "d1" }] } [] [] rfl rfl rfl rfl rfl
  rw [h.1]
  rfl

lemma foldMax_spec :
    ∀ (evs : List SyncthingEvent) (s : Nat),
      s ≤ evs.foldl (fun acc e => if acc < e.id then e.id else acc) s ∧
      (∀ e ∈ evs, e.id ≤ evs.foldl (fun acc e => if acc < e.id then e.id else acc) s) ∧
      (evs.foldl (fun acc e => if acc < e.id then e.id else acc) s = s ∨
        ∃ e ∈ evs, e.id = evs.foldl (fun acc e => if acc < e.id then e.id else acc) s)
  | [], s => ⟨le_refl s, by simp, Or.inl rfl⟩
  | e :: rest, s => by
    obtain ⟨ih1, ih2, ih3⟩ := foldMax_spec rest (if s < e.id then e.id else s)
    simp only [List.foldl_cons]
    refine ⟨?_, ?_, ?_⟩
    · exact le_trans (by split <;> omega) ih1
    · intro x hx
      rcases List.mem_cons.mp hx with hx1 | hx2
      · rw [hx1]
        exact le_trans (by split <;> omega) ih1
      · exact ih2 x hx2
    · rcases ih3 with h | ⟨x, hx, hxe⟩
      · by_cases hlt : s < e.id
        · right
          exact ⟨e, List.mem_cons_self _ _, by rw [h, if_pos hlt]⟩
        · left
          rw [h, if_neg hlt]
      · right
        exact ⟨x, List.mem_cons_of_mem _ hx, hxe⟩

/-- C8: wait_for_updates builds a single events query with limit 1, the
given cursor, and the timeout in whole seconds clamped to [1,300] (left
unchanged when already in range); on a successful response the result's
last_event_id bounds every observed id, equals the cursor or one of the
observed ids (hence is the maximum observed id, or the unchanged cursor when
no event exceeds it), and has_updates holds exactly when the response was
nonempty. -/
theorem wait_for_updates_spec (since timeout_secs : Nat)
    (respond : EventStreamQuery → Except MonitorError (List SyncthingEvent)) :
    (wait_for_updates since timeout_secs respond).1.limit = 1 ∧
    (wait_for_updates since timeout_secs respond).1.since = since ∧
    1 ≤ (wait_for_updates since timeout_secs respond).1.timeout ∧
    (wait_for_updates since timeout_secs respond).1.timeout ≤ 300 ∧
    (1 ≤ timeout_secs → timeout_secs ≤ 300 →
      (wait_for_updates since timeout_secs respond).1.timeout = timeout_secs) ∧
    ∀ evs, respond (wait_for_updates since timeout_secs respond).1 = .ok evs →
      ∃ r, (wait_for_updates since timeout_secs respond).2 = .ok r ∧
        (r.has_updates = true ↔ evs ≠ []) ∧
        since ≤ r.last_event_id ∧
        (∀ e ∈ evs, e.id ≤ r.last_event_id) ∧
        (r.last_event_id = since ∨ ∃ e ∈ evs, e.id = r.last_event_id) := by
  refine ⟨rfl, rfl, ?_, ?_, ?_, ?_⟩
  · show 1 ≤ min (max timeout_secs 1) 300
    omega
  · show min (max timeout_secs 1) 300 ≤ 300
    omega
  · intro h1 h2
    show min (max timeout_secs 1) 300 = timeout_secs
    omega
  · intro evs hresp
    have h2 : (wait_for_updates since timeout_secs respond).2 =
        .ok { last_event_id :=
                evs.foldl (fun acc e => if acc < e.id then e.id else acc) since
            , has_updates := !evs.isEmpty } := by
      have hresp2 : respond { since := since, limit := 1,
                              timeout := min (max timeout_secs 1) 300,
                              events := none } = .ok evs := hresp
      rw [wait_for_updates]
      simp only []
      rw [hresp2]
    obtain ⟨hge, hub, hcases⟩ := foldMax_spec evs since
    refine ⟨_, h2, ?_, hge, hub, hcases⟩
    cases evs <;> simp

/-- Witness for C8: cursor 5, timeout 0 (clamped to 1), one event of id 7. -/
theorem wait_for_updates_spec_witness :
    1 ≤ (wait_for_updates 5 0 c8respond).1.timeout ∧
    (wait_for_updates 5 0 c8respond).2 =
      .ok { last_event_id := 7, has_updates := true } := by
  obtain ⟨-, -, h1, -, -, hsucc⟩ := wait_for_updates_spec 5 0 c8respond
  obtain ⟨r, hr, hu, hge, hub, hcases⟩ :=
    hsucc [{ id := 7, event_type := "ItemStarted", time := "t", data := Json.null }] rfl
  have h7 : r.last_event_id = 7 := by
    rcases hcases with h | ⟨e, he, heq⟩
    · exfalso
      have h7le : (7 : Nat) ≤ r.last_event_id := by
        simpa using hub { id := 7, event_type := "ItemStarted", time := "t",
                          data := Json.null } (by simp)
      omega
    · have he2 : e = { id := 7, event_type := "ItemStarted", time := "t",
                       data := Json.null } := by
        simpa using he
      rw [he2] at heq
      exact heq.symm
  have hu2 : r.has_updates = true := hu.mpr (by simp)
  refine ⟨h1, ?_⟩
  have hre : r = { last_event_id := 7, has_updates := true } := by
    cases r
    simp_all
  rw [hr, hre]

lemma extract_none_of_no_tag (contents : String)
    (h : findSubIdx ("<apikey>".toList) contents.toList = none) :
    extract_api_key contents = none := by
  simp only [extract_api_key]
  rw [h]

/-- C9: when the environment variable is unset or blank and the XML config
is readable but contains no apikey start tag, load_api_key returns the
Missing-credential error; otherwise a nonblank environment value is returned
as is, and failing that, the text extracted from the first apikey tag. -/
theorem load_api_key_spec (envVar : Option String) (contents : String) :
    ((envVar = none ∨ ∃ v, envVar = some v ∧ strTrim v = "") →
      (findSubIdx ("<apikey>".toList) contents.toList = none →
        load_api_key envVar (.ok contents) = .error .MissingApiKey) ∧
      (∀ k, extract_api_key contents = some k →
        load_api_key envVar (.ok contents) = .ok k)) ∧
    (∀ v, envVar = some v → strTrim v ≠ "" →
      ∀ file, load_api_key envVar file = .ok v) := by
  constructor
  · intro hblank
    have hfromFile : load_api_key envVar (.ok contents) =
        (match extract_api_key contents with
         | some key => .ok key
         | none => .error .MissingApiKey) := by
      rcases hblank with rfl | ⟨v, rfl, hv⟩
      · rfl
      · simp [load_api_key, hv]
    constructor
    · intro hno
      rw [hfromFile, extract_none_of_no_tag contents hno]
    · intro k hk
      rw [hfromFile, hk]
  · intro v hv hne file
    subst hv
    have hb : (strTrim v == "") = false := beq_eq_false_iff_ne.mpr hne
    simp [load_api_key, hb]

/-- Witness for C9: a file with no tag gives the Missing-credential error, a
file with a tag gives the tag body, and a nonblank environment value wins
even when the file is unreadable. -/
theorem load_api_key_spec_witness :
    load_api_key none (.ok "noapikeyhere") = .error .MissingApiKey ∧
    load_api_key none (.ok "<apikey>KEY</apikey>") = .ok "KEY" ∧
    load_api_key (some "E") (.error "io down") = .ok "E" := by
  refine ⟨?_, ?_, ?_⟩
  · exact ((load_api_key_spec none "noapikeyhere").1 (Or.inl rfl)).1 (by decide)
  · exact ((load_api_key_spec none "<apikey>KEY</apikey>").1 (Or.inl rfl)).2
      "KEY" (by decide)
  · exact (load_api_key_spec (some "E") "").2 "E" rfl (by decide) (.error "io down")

lemma head?_dropWhile_all (p : α → Bool) (l : List α) :
    ∀ c, (l.dropWhile p).head? = some c → p c = false := by
  intro c hc
  have h := List.head?_dropWhile_not p l
  rw [hc] at h
  exact h

lemma getLast?_dropWhile (p : α → Bool) :
    ∀ (l : List α), l.dropWhile p ≠ [] → (l.dropWhile p).getLast? = l.getLast?
  | [], h => absurd rfl h
  | a :: t, h => by
    by_cases hp : p a
    · rw [List.dropWhile_cons_of_pos hp] at h ⊢
      have ht : t ≠ [] := by
        rintro rfl
        simp at h
      rw [getLast?_dropWhile p t h]
      cases t with
      | nil => exact absurd rfl ht
      | cons b t2 => rw [List.getLast?_cons_cons]
    · rw [List.dropWhile_cons_of_neg hp]

lemma toList_asString (l : List Char) : (l.asString).toList = l := rfl

lemma trimChars_ends_not_whitespace (l : List Char) :
    ((trimChars l).head?.all (fun c => !c.isWhitespace)) = true ∧
    ((trimChars l).getLast?.all (fun c => !c.isWhitespace)) = true := by
  rw [trimChars]
  constructor
  · rw [List.head?_reverse]
    by_cases hb : (l.dropWhile Char.isWhitespace).reverse.dropWhile Char.isWhitespace = []
    · rw [hb]; rfl
    · rw [getLast?_dropWhile _ _ hb, List.getLast?_reverse]
      cases ha : (l.dropWhile Char.isWhitespace).head? with
      | none => rfl
      | some c =>
        have hnw := head?_dropWhile_all Char.isWhitespace l c ha
        simp [hnw]
  · rw [List.getLast?_reverse]
    cases hbh : ((l.dropWhile Char.isWhitespace).reverse.dropWhile Char.isWhitespace).head? with
    | none => rfl
    | some c =>
      have hnw := head?_dropWhile_all Char.isWhitespace
        (l.dropWhile Char.isWhitespace).reverse c hbh
      simp [hnw]

/-- C10: a blank (empty or whitespace-only) environment value is ignored, so
load_api_key behaves as if the variable were unset; every key extracted from
the apikey tag carries no surrounding whitespace (its first and last
characters are not whitespace); and a tag whose body is only whitespace
yields the empty-string key — the call succeeds with "" instead of failing
with the Missing-credential error. -/
theorem load_api_key_trimming (v : String) (file : Except String String) :
    (strTrim v = "" → load_api_key (some v) file = load_api_key none file) ∧
    (∀ contents k, extract_api_key contents = some k →
      (k.toList.head?.all (fun c => !c.isWhitespace)) = true ∧
      (k.toList.getLast?.all (fun c => !c.isWhitespace)) = true) ∧
    (∀ contents, extract_api_key contents = some "" →
      load_api_key none (.ok contents) = .ok "") := by
  refine ⟨?_, ?_, ?_⟩
  · intro hv
    simp [load_api_key, hv]
  · intro contents k hk
    simp only [extract_api_key] at hk
    split at hk
    · cases hk
    · split at hk
      · cases hk
      · injection hk with hk
        rw [← hk, toList_asString]
        exact trimChars_ends_not_whitespace _
  · intro contents hce
    simp [load_api_key, hce]

/-- Witness for C10: a whitespace-only environment value falls back to the
XML key, and a whitespace-only tag body yields the empty key. -/
theorem load_api_key_trimming_witness :
    load_api_key (some "  ") (.ok "<apikey> k1 </apikey>") = .ok "k1" ∧
    load_api_key none (.ok "<apikey> \t </apikey>") = .ok "" := by
  constructor
  · have h := (load_api_key_trimming "  " (.ok "<apikey> k1 </apikey>")).1 (by decide)
    rw [h]
    rfl
  · exact (load_api_key_trimming "x" (.error "e")).2.2 "<apikey> \t </apikey>"
      (by decide)

end SyncMon
